import Mathlib

/-!
Verification of the checkpoint-persistence layer of `epsilon_transformers`
(`epsilon_transformers/persistence.py`): the regex-driven config-inference
engine `_state_dict_to_model_config`, and the overwrite protection of the
local and S3 persisters, shallowly embedded in Lean.

Python exceptions are modelled as `Except` errors whose constructors carry
exactly the data the corresponding Python message interpolates.
-/

namespace Persistence

/-- Decidable equality for `Except`, used to evaluate the embedded
functions on concrete inputs. -/
instance {ε α : Type} [DecidableEq ε] [DecidableEq α] : DecidableEq (Except ε α) := fun x y =>
  match x, y with
  | .ok a, .ok b =>
    if h : a = b then isTrue (by rw [h]) else isFalse (fun hc => h (Except.ok.inj hc))
  | .error a, .error b =>
    if h : a = b then isTrue (by rw [h]) else isFalse (fun hc => h (Except.error.inj hc))
  | .ok _, .error _ => isFalse (fun hc => Except.noConfusion hc)
  | .error _, .ok _ => isFalse (fun hc => Except.noConfusion hc)

/-- A weight tensor.  The inference code only ever reads `size()` (the
shape); the numeric contents (`data`) are carried so that independence from
them is expressible. -/
structure Tensor where
  shape : List Nat
  data : List Int
  deriving DecidableEq, Repr

/-- `torch.Tensor.size()` returns the shape. -/
def Tensor.size (t : Tensor) : List Nat := t.shape

/-- A state dict: the ordered mapping from tensor name to tensor
(`OrderedDict` in the source). -/
abbrev StateDict := List (String × Tensor)

/-- Modelled from the spec: `RawModelConfig` is imported by the source from
`epsilon_transformers.training.configs.model_configs`, which is not among
the given sources.  Per the spec's data model it is "a record with fields
`{d_vocab, d_model, n_ctx, d_head, n_head, d_mlp, n_layers}`"; the call
`RawModelConfig(**param_dict)` stores those fields. -/
structure RawModelConfig where
  d_vocab : Nat
  d_model : Nat
  n_ctx : Nat
  d_head : Nat
  n_head : Nat
  d_mlp : Nat
  n_layers : Nat
  deriving DecidableEq, Repr

/-- The fragment of Python `re` the registry uses: literal runs, `\d+`, and
a two-way alternation of literals. -/
inductive RElem where
  | lit (s : String)
  | digits
  | alt (a b : String)
  deriving DecidableEq, Repr

abbrev Pattern := List RElem

/-- Start-anchored matching, the semantics of `re.match`: does some prefix
of `cs` match the whole pattern?  The greedy treatment of `\d+` is
equivalent to Python's backtracking here, because in every pattern of the
registry the element following `\d+` starts with a non-digit character, so
only the maximal digit run can lead to a successful match. -/
def matchElems : Pattern → List Char → Bool
  | [], _ => true
  | .lit s :: rest, cs =>
    s.toList.isPrefixOf cs && matchElems rest (cs.drop s.toList.length)
  | .digits :: rest, cs =>
    !(cs.takeWhile Char.isDigit).isEmpty && matchElems rest (cs.dropWhile Char.isDigit)
  | .alt a b :: rest, cs =>
    (a.toList.isPrefixOf cs && matchElems rest (cs.drop a.toList.length)) ||
    (b.toList.isPrefixOf cs && matchElems rest (cs.drop b.toList.length))

/-- Truthiness of `re.match(pattern, s)`. -/
def reMatch (p : Pattern) (s : String) : Bool := matchElems p s.toList

/-- The five config fields inferable from tensor shapes: the keys of
`param_dict` other than `n_ctx` and `n_layers`. -/
inductive Field where
  | d_vocab
  | d_model
  | d_head
  | n_head
  | d_mlp
  deriving DecidableEq, Repr

/-- `_HOOKED_TRANSFORMER_MODULE_REGEXES_REGISTRY`, in insertion order. -/
def _HOOKED_TRANSFORMER_MODULE_REGEXES_REGISTRY :
    List (Pattern × List (Field × Nat)) :=
  [ ([.lit ("embed.W_E")], [(.d_vocab, 0), (.d_model, 1)]),
    ([.lit ("pos_embed.W_pos")], []),
    ([.lit ("blocks."), .digits, .lit (".ln"), .digits, .lit ("."), .alt ("w") ("b")], []),
    ([.lit ("blocks."), .digits, .lit (".attn.W_Q")], [(.n_head, 0), (.d_head, 2)]),
    ([.lit ("blocks."), .digits, .lit (".attn.b_Q")], []),
    ([.lit ("blocks."), .digits, .lit (".attn.W_K")], []),
    ([.lit ("blocks."), .digits, .lit (".attn.b_K")], []),
    ([.lit ("blocks."), .digits, .lit (".attn.W_O")], []),
    ([.lit ("blocks."), .digits, .lit (".attn.b_O")], []),
    ([.lit ("blocks."), .digits, .lit (".attn.W_V")], []),
    ([.lit ("blocks."), .digits, .lit (".attn.b_V")], []),
    ([.lit ("blocks."), .digits, .lit (".attn.mask")], []),
    ([.lit ("blocks."), .digits, .lit (".attn.IGNORE")], []),
    ([.lit ("blocks."), .digits, .lit (".mlp.W_in")], [(.d_mlp, 1)]),
    ([.lit ("blocks."), .digits, .lit (".mlp.b_in")], []),
    ([.lit ("blocks."), .digits, .lit (".mlp.W_out")], []),
    ([.lit ("blocks."), .digits, .lit (".mlp.b_out")], []),
    ([.lit ("ln_final."), .alt ("w") ("b")], []),
    ([.lit ("unembed."), .alt ("W_U") ("b_U")], []) ]

/-- `param_dict`, the dict mutated by `_state_dict_to_model_config`.
`n_ctx` and `n_layers` are set up front and never reassigned; the other
five entries start as `None`. -/
structure ParamDict where
  d_vocab : Option Nat
  d_model : Option Nat
  n_ctx : Nat
  d_head : Option Nat
  n_head : Option Nat
  d_mlp : Option Nat
  n_layers : Nat
  deriving DecidableEq, Repr

def ParamDict.get (pd : ParamDict) : Field → Option Nat
  | .d_vocab => pd.d_vocab
  | .d_model => pd.d_model
  | .d_head => pd.d_head
  | .n_head => pd.n_head
  | .d_mlp => pd.d_mlp

def ParamDict.set (pd : ParamDict) : Field → Nat → ParamDict
  | .d_vocab, v => { pd with d_vocab := some v }
  | .d_model, v => { pd with d_model := some v }
  | .d_head, v => { pd with d_head := some v }
  | .n_head, v => { pd with n_head := some v }
  | .d_mlp, v => { pd with d_mlp := some v }

/-- The exceptions config inference can raise, carrying the data each
Python message interpolates: the `AssertionError` of `_extract_true_key`
(its message shows the list `out` of matching patterns and the registry,
not the tensor name), the `TypeError` from `highest_block_idx + 1` when no
block key was seen, the `IndexError` from `module.size()[dim]`, and the
bare final `assert` (which has no message at all). -/
inductive InferError where
  | ambiguousPattern (matched : List Pattern)
      (registry : List (Pattern × List (Field × Nat)))
  | noLayers
  | dimOutOfRange (dim : Nat)
  | incompleteInference
  deriving DecidableEq, Repr

/-- `regex_dict = {pattern: bool(re.match(pattern, module_name)) for
pattern in _HOOKED_TRANSFORMER_MODULE_REGEXES_REGISTRY.keys()}`. -/
def regex_dict (module_name : String) : List (Pattern × Bool) :=
  _HOOKED_TRANSFORMER_MODULE_REGEXES_REGISTRY.map
    (fun pr => (pr.1, reMatch pr.1 module_name))

/-- `_extract_true_key`: collect the keys mapped to `True`; assert that
exactly one remains and return it. -/
def _extract_true_key (dictionary : List (Pattern × Bool)) : Except InferError Pattern :=
  match (dictionary.filter (fun pb => pb.2)).map Prod.fst with
  | [p] => Except.ok p
  | out => Except.error (.ambiguousPattern out _HOOKED_TRANSFORMER_MODULE_REGEXES_REGISTRY)

/-- First maximal digit run of a string: `re.search(r'\d+', key)`. -/
def firstDigitRun : List Char → Option (List Char)
  | [] => none
  | c :: cs => if c.isDigit then some (c :: cs.takeWhile Char.isDigit) else firstDigitRun cs

/-- Decimal value of a digit string: `int(...)`. -/
def natOfDigits (ds : List Char) : Nat :=
  ds.foldl (fun n c => 10 * n + (c.toNat - 48)) 0

/-- `blocks\.\d+\.`, the key family `_extract_n_layers` scans for. -/
def blocksFamilyPattern : Pattern := [.lit ("blocks."), .digits, .lit (".")]

/-- `int(re.search(r'\d+', key).group())`.  The `.getD []` default is dead
code in context: the index is only computed for keys matching
`blocksFamilyPattern`, which forces a digit run to exist. -/
def local_block_idx (key : String) : Nat :=
  natOfDigits ((firstDigitRun key.toList).getD [])

/-- The accumulator loop of `_extract_n_layers`. -/
def nLayersLoop (highest_block_idx : Option Nat) : StateDict → Option Nat
  | [] => highest_block_idx
  | (key, _) :: rest =>
    if reMatch blocksFamilyPattern key then
      match highest_block_idx with
      | none => nLayersLoop (some (local_block_idx key)) rest
      | some h =>
        nLayersLoop (some (if local_block_idx key > h then local_block_idx key else h)) rest
    else nLayersLoop highest_block_idx rest

/-- `_extract_n_layers`.  When no key matched, `highest_block_idx + 1` is
`None + 1` in Python, an uncaught `TypeError`; modelled as
`InferError.noLayers`. -/
def _extract_n_layers (state_dict : StateDict) : Except InferError Nat :=
  match nLayersLoop none state_dict with
  | none => Except.error .noLayers
  | some highest_block_idx => Except.ok (highest_block_idx + 1)

/-- The inner `for key, dim in REGISTRY[pattern]` loop of the per-tensor
pass: a still-unresolved field is set to `module.size()[dim]` (an
`IndexError` if `dim` is out of range); a resolved field is left alone. -/
def applyRules (module : Tensor) :
    ParamDict → List (Field × Nat) → Except InferError ParamDict
  | pd, [] => Except.ok pd
  | pd, (key, dim) :: rest =>
    if (pd.get key).isNone then
      match module.size.get? dim with
      | some v => applyRules module (pd.set key v) rest
      | none => Except.error (.dimOutOfRange dim)
    else applyRules module pd rest

/-- One iteration of `for module_name, module in state_dict.items()`:
match against every registry pattern, assert a unique match, apply the
matched pattern's extraction instructions.  The `.getD []` is dead code in
context: the pattern returned by `_extract_true_key` is a registry key. -/
def procEntry (pd : ParamDict) (module_name : String) (module : Tensor) :
    Except InferError ParamDict :=
  match _extract_true_key (regex_dict module_name) with
  | .error e => Except.error e
  | .ok pattern =>
    applyRules module pd
      ((_HOOKED_TRANSFORMER_MODULE_REGEXES_REGISTRY.lookup pattern).getD [])

/-- The whole per-tensor loop of `_state_dict_to_model_config`. -/
def procAll (pd : ParamDict) : StateDict → Except InferError ParamDict
  | [] => Except.ok pd
  | (module_name, module) :: rest =>
    match procEntry pd module_name module with
    | .error e => Except.error e
    | .ok pd₁ => procAll pd₁ rest

/-- The initial `param_dict` literal of line 150. -/
def initParamDict (n_ctx n_layers : Nat) : ParamDict :=
  ⟨none, none, n_ctx, none, none, none, n_layers⟩

/-- Lines 157-158: `assert all([value is not None ...])` (a bare
`AssertionError` when some field is unresolved — `n_ctx` and `n_layers`
are plain ints and always count as resolved), then
`RawModelConfig(**param_dict)`. -/
def finalize (pd : ParamDict) : Except InferError RawModelConfig :=
  match pd.d_vocab, pd.d_model, pd.d_head, pd.n_head, pd.d_mlp with
  | some dv, some dm, some dh, some nh, some dmlp =>
    Except.ok ⟨dv, dm, pd.n_ctx, dh, nh, dmlp, pd.n_layers⟩
  | _, _, _, _, _ => Except.error .incompleteInference

/-- `_state_dict_to_model_config(state_dict, n_ctx=10)`. -/
def _state_dict_to_model_config (state_dict : StateDict) (n_ctx : Nat := 10) :
    Except InferError RawModelConfig :=
  match _extract_n_layers state_dict with
  | .error e => Except.error e
  | .ok n_layers =>
    match procAll (initParamDict n_ctx n_layers) state_dict with
    | .error e => Except.error e
    | .ok pd => finalize pd

/-! Spec-side definitions, following the spec's words, for the refinement
claims about inference. -/

/-- The extraction instructions the code will use for a tensor name: those
of the unique matching registry pattern, `[]` when unique matching fails. -/
def entryRules (module_name : String) : List (Field × Nat) :=
  match _extract_true_key (regex_dict module_name) with
  | .ok pattern =>
    (_HOOKED_TRANSFORMER_MODULE_REGEXES_REGISTRY.lookup pattern).getD []
  | .error _ => []

/-- First `(fieldName, dimensionIndex)` instruction for `f` in a rule
list. -/
def patternFieldDim (rules : List (Field × Nat)) (f : Field) : Option Nat :=
  (rules.find? (fun fd => fd.1 == f)).map Prod.snd

/-- The shape entry a rule list makes a tensor contribute for field `f`
(when the list mentions `f` and the dimension index is in range). -/
def ruleObservation (module : Tensor) (rules : List (Field × Nat)) (f : Field) : Option Nat :=
  match patternFieldDim rules f with
  | some dim => module.size.get? dim
  | none => none

/-- Spec-side reading of §4.2: `tensorShape[dimensionIndex]` taken from the
first tensor, in mapping order, whose matched pattern lists field `f`. -/
def specFirstObservation (f : Field) : StateDict → Option Nat
  | [] => none
  | (module_name, module) :: rest =>
    match patternFieldDim (entryRules module_name) f with
    | some dim => module.size.get? dim
    | none => specFirstObservation f rest

/-- The list of `out` in `_extract_true_key`: registry patterns matching a
name, in registry order. -/
def regexOut (module_name : String) : List Pattern :=
  ((regex_dict module_name).filter (fun pb => pb.2)).map Prod.fst

/-- Spec-side §4.2 step 1: the tensor names of the `blocks.<index>.*`
family. -/
def blockKeys (state_dict : StateDict) : List String :=
  (state_dict.map Prod.fst).filter (fun k => reMatch blocksFamilyPattern k)

/-- Spec-side index extraction: the integer written in the `<index>`
position, i.e. the digit run right after `"blocks."`. -/
def specBlockIndex (key : String) : Nat :=
  natOfDigits ((key.toList.drop ("blocks.".toList.length)).takeWhile Char.isDigit)

/-- Read the config field corresponding to an inferable `Field`. -/
def cfgGet (cfg : RawModelConfig) : Field → Nat
  | .d_vocab => cfg.d_vocab
  | .d_model => cfg.d_model
  | .d_head => cfg.d_head
  | .n_head => cfg.n_head
  | .d_mlp => cfg.d_mlp

/-- Every tensor agrees with `v` on every field its matched pattern lists —
the "repeated structural tensors are expected to agree" premise of the
spec's §4.2 design rationale. -/
def AgreesWith (v : Field → Nat) (state_dict : StateDict) : Prop :=
  ∀ nt ∈ state_dict, ∀ fd ∈ entryRules nt.1, nt.2.size.get? fd.2 = some (v fd.1)

instance (v : Field → Nat) (state_dict : StateDict) : Decidable (AgreesWith v state_dict) :=
  inferInstanceAs (Decidable (∀ nt ∈ state_dict, ∀ fd ∈ entryRules nt.1,
    nt.2.size.get? fd.2 = some (v fd.1)))

/-! Analysis-side definitions for the registry-disjointness argument: with
this registry no tensor name can match two patterns, so the ambiguity
error's payload is the same (`[]`, the registry) wherever it arises. -/

/-- Two literals differ at some position both of them cover — so no string
can have both as a prefix. -/
def incompatibleLits : List Char → List Char → Bool
  | c1 :: t1, c2 :: t2 => if c1 = c2 then incompatibleLits t1 t2 else true
  | _, _ => false

/-- Sufficient check that two pattern tails starting with `\d+` and a
literal can never both match the same remainder: the digit run consumed is
pattern-independent, so incompatible follow-up literals decide it. -/
def tailChk : Pattern → Pattern → Bool
  | .digits :: .lit t1 :: _, .digits :: .lit t2 :: _ =>
    incompatibleLits t1.toList t2.toList
  | _, _ => false

/-- Sufficient check that two registry patterns are disjoint: their leading
literals are incompatible, or they share the leading literal and their
tails pass `tailChk`. -/
def disjChk : Pattern → Pattern → Bool
  | .lit s1 :: p1, .lit s2 :: p2 =>
    incompatibleLits s1.toList s2.toList ||
    (s1 == s2 && tailChk p1 p2)
  | _, _ => false

/-- No string matches both patterns. -/
def PatDisjoint (p q : Pattern) : Prop :=
  ∀ cs : List Char, ¬(matchElems p cs = true ∧ matchElems q cs = true)

/-- Every tensor name of the mapping matches exactly one registry
pattern. -/
def allUniqueB (state_dict : StateDict) : Bool :=
  state_dict.all (fun nt => (regexOut nt.1).length == 1)

/-- Some tensor's matched pattern lists field `f`. -/
def fieldObservedB (f : Field) (state_dict : StateDict) : Bool :=
  state_dict.any (fun nt => (entryRules nt.1).any (fun fd => fd.1 == f))

/-! The storage adapters.  The filesystem / object store is external state;
a save call is modelled as a function from that state to the trace of
backend operations it issues (in order), the state after the call, and the
outcome. -/

/-- A torch module, as the persisters see it: something with a state dict
(`model.state_dict()` is what gets serialized and written). -/
structure TorchModule where
  state_dict : StateDict
  deriving DecidableEq

/-- Contents of a collection (directory or bucket): keys to stored
serialized state dicts. -/
abbrev Collection := List (String × StateDict)

def keyExists (c : Collection) (key : String) : Bool := (c.lookup key).isSome

/-- Filesystem operations a local save issues, in order. -/
inductive FsOp where
  | checkExists (path : String)
  | write (path : String) (blob : StateDict)
  deriving DecidableEq

/-- The `ValueError`s raised on the save paths, with the data their
messages interpolate: overwrite protection, and the S3 "Expected 404 from
empty object, received e" re-raise. -/
inductive SaveError where
  | overwrite (object_name : String)
  | unexpectedClientError (code : String)
  deriving DecidableEq

structure LocalPersister where
  collection_location : String

/-- `save_path = self.collection_location / f"{num_tokens_trained}.pt"`. -/
def localSavePath (p : LocalPersister) (num_tokens_trained : Nat) : String :=
  p.collection_location ++ "/" ++ toString num_tokens_trained ++ ".pt"

/-- `LocalPersister.save_model`: `_save_overwrite_protection` (raise if
`save_path.exists()`), then `torch.save(model.state_dict(), save_path)`. -/
def LocalPersister.save_model (p : LocalPersister) (fs : Collection)
    (model : TorchModule) (num_tokens_trained : Nat) :
    List FsOp × Collection × Except SaveError Unit :=
  let save_path := localSavePath p num_tokens_trained
  if keyExists fs save_path then
    ([.checkExists save_path], fs, Except.error (.overwrite save_path))
  else
    ([.checkExists save_path, .write save_path model.state_dict],
     (save_path, model.state_dict) :: fs, Except.ok ())

/-- The remote backend as the S3 persister sees it: the bucket contents,
plus an optionally injected non-"not found" failure of `head_object`
(an auth/network `ClientError` with the given error code). -/
structure S3State where
  objects : Collection
  headFault : Option String
  deriving DecidableEq

/-- Outcome of `self.s3.head_object(...)`: success (the object exists) or a
`ClientError` carrying `e.response['Error']['Code']`. -/
inductive HeadResult where
  | found
  | clientError (code : String)
  deriving DecidableEq

def head_object (s3 : S3State) (key : String) : HeadResult :=
  match s3.headFault with
  | some code => .clientError code
  | none => if keyExists s3.objects key then .found else .clientError ("404")

/-- S3 operations a remote save issues, in order. -/
inductive S3Op where
  | headObject (key : String)
  | uploadFileobj (key : String) (blob : StateDict)
  deriving DecidableEq

structure S3Persister where
  collection_location : String

/-- `S3Persister._save_overwrite_protection`: a successful `head_object`
means the object exists, so raise the overwrite `ValueError` (uncaught by
the `except ClientError` clause); a `ClientError` with code `'404'` means
absent (`pass`); any other `ClientError` is re-raised as
`ValueError("Expected 404 from empty object, received ...")`. -/
def S3Persister._save_overwrite_protection (p : S3Persister) (s3 : S3State)
    (object_name : String) : Except SaveError Unit :=
  match head_object s3 object_name with
  | .found => Except.error (.overwrite (p.collection_location ++ "/" ++ object_name))
  | .clientError code =>
    if code = "404" then Except.ok () else Except.error (.unexpectedClientError code)

/-- `object_name = f'{num_tokens_trained}.pt'`. -/
def s3ObjectName (num_tokens_trained : Nat) : String :=
  toString num_tokens_trained ++ ".pt"

/-- `S3Persister.save_model`: overwrite protection, then
`upload_fileobj` of the serialized state dict. -/
def S3Persister.save_model (p : S3Persister) (s3 : S3State)
    (model : TorchModule) (num_tokens_trained : Nat) :
    List S3Op × S3State × Except SaveError Unit :=
  let object_name := s3ObjectName num_tokens_trained
  match p._save_overwrite_protection s3 object_name with
  | .error e => ([.headObject object_name], s3, Except.error e)
  | .ok _ =>
    ([.headObject object_name, .uploadFileobj object_name model.state_dict],
     { s3 with objects := (object_name, model.state_dict) :: s3.objects },
     Except.ok ())

/-! Concrete inputs used by the individual claims. -/

/-- Shorthand: a tensor of the given shape with no stored values. -/
def T (shape : List Nat) : Tensor := ⟨shape, []⟩

/-- All tensors of one transformer block `blocks.<i>.*`, with the shapes of
the spec's §8 example checkpoint (d_model 512, 8 heads of width 64, mlp
width 2048). -/
def blockTensors (i : Nat) : StateDict :=
  let p := "blocks." ++ toString i ++ "."
  [ (p ++ "ln1.w", T [512]), (p ++ "ln1.b", T [512]),
    (p ++ "ln2.w", T [512]), (p ++ "ln2.b", T [512]),
    (p ++ "attn.W_Q", T [8, 512, 64]), (p ++ "attn.b_Q", T [8, 64]),
    (p ++ "attn.W_K", T [8, 512, 64]), (p ++ "attn.b_K", T [8, 64]),
    (p ++ "attn.W_O", T [8, 64, 512]), (p ++ "attn.b_O", T [512]),
    (p ++ "attn.W_V", T [8, 512, 64]), (p ++ "attn.b_V", T [8, 64]),
    (p ++ "attn.mask", T [10, 10]), (p ++ "attn.IGNORE", T []),
    (p ++ "mlp.W_in", T [512, 2048]), (p ++ "mlp.b_in", T [2048]),
    (p ++ "mlp.W_out", T [2048, 512]), (p ++ "mlp.b_out", T [512]) ]

/-- The spec §8 example mapping: a complete checkpoint with blocks 0‥11,
`embed.W_E` of shape `[50000, 512]`, and a stray `blocks.23.attn.W_Q` of
shape `[8, 512, 64]`. -/
def c1StateDict : StateDict :=
  [("embed.W_E", T [50000, 512]), ("pos_embed.W_pos", T [10, 512])]
    ++ ((List.range 12).map blockTensors).flatten
    ++ [("blocks.23.attn.W_Q", T [8, 512, 64]),
        ("ln_final.w", T [512]), ("ln_final.b", T [512]),
        ("unembed.W_U", T [512, 50000]), ("unembed.b_U", T [50000])]

/-- A mapping whose single block index is astronomically large. -/
def c2StateDict : StateDict :=
  [("blocks.123456789012345678901234567890.attn.W_Q", T [8, 512, 64])]

/-- Mappings differing only in the name of a tensor no registry pattern
matches (`foo` resp. `bar`). -/
def c3StateDictFoo : StateDict :=
  [("blocks.0.attn.W_Q", T [2, 7, 3]), ("foo", T [1])]

def c3StateDictBar : StateDict :=
  [("blocks.0.attn.W_Q", T [2, 7, 3]), ("bar", T [1])]

/-- A minimal mapping resolving all five shape-derived fields. -/
def c4StateDict : StateDict :=
  [("embed.W_E", T [13, 7]), ("blocks.0.attn.W_Q", T [2, 7, 3]),
   ("blocks.0.mlp.W_in", T [7, 11]), ("blocks.0.attn.W_K", T [2, 7, 3])]

/-- A complete one-block checkpoint from which all tensors matching the
`mlp.W_in` pattern are omitted (so `d_mlp` stays unresolved). -/
def c5StateDict : StateDict :=
  [("embed.W_E", T [50, 16]), ("pos_embed.W_pos", T [10, 16]),
   ("blocks.0.ln1.w", T [16]), ("blocks.0.ln1.b", T [16]),
   ("blocks.0.ln2.w", T [16]), ("blocks.0.ln2.b", T [16]),
   ("blocks.0.attn.W_Q", T [2, 16, 8]), ("blocks.0.attn.b_Q", T [2, 8]),
   ("blocks.0.attn.W_K", T [2, 16, 8]), ("blocks.0.attn.b_K", T [2, 8]),
   ("blocks.0.attn.W_O", T [2, 8, 16]), ("blocks.0.attn.b_O", T [16]),
   ("blocks.0.attn.W_V", T [2, 16, 8]), ("blocks.0.attn.b_V", T [2, 8]),
   ("blocks.0.attn.mask", T [10, 10]), ("blocks.0.attn.IGNORE", T []),
   ("blocks.0.mlp.b_in", T [64]),
   ("blocks.0.mlp.W_out", T [64, 16]), ("blocks.0.mlp.b_out", T [16]),
   ("ln_final.w", T [16]), ("ln_final.b", T [16]),
   ("unembed.W_U", T [16, 50]), ("unembed.b_U", T [50])]

/-- Leaves `d_mlp` unresolved. -/
def c5MissingDMlp : StateDict :=
  [("embed.W_E", T [5, 7]), ("blocks.0.attn.W_Q", T [2, 7, 3])]

/-- Leaves `d_head` and `n_head` unresolved. -/
def c5MissingHeads : StateDict :=
  [("embed.W_E", T [5, 7]), ("blocks.0.mlp.W_in", T [7, 11])]

/-- Leaves everything but `d_mlp` unresolved. -/
def c5WitnessSd : StateDict := [("blocks.0.mlp.W_in", T [7, 11])]

/-- A mapping with no `blocks.<index>.*` key at all. -/
def c6StateDict : StateDict := [("embed.W_E", T [5, 7])]

def c7Persister : LocalPersister := ⟨"models"⟩

def c7Fs : Collection := [("models/5.pt", [("embed.W_E", T [5, 7])])]

def c7Model : TorchModule := ⟨[("embed.W_E", T [9, 9])]⟩

def c7S3Persister : S3Persister := ⟨"bucket"⟩

def c7S3 : S3State := ⟨[("5.pt", [("embed.W_E", T [5, 7])])], none⟩

def c8S3Persister : S3Persister := ⟨"bucket"⟩

/-- A backend whose existence check fails with a non-404 client error. -/
def c8S3 : S3State := ⟨[], some "403"⟩

def c8Model : TorchModule := ⟨[("embed.W_E", T [9, 9])]⟩

/-- A complete mapping whose two `attn.W_Q` tensors disagree on their
shapes, and the same entries with the two `W_Q` tensors swapped. -/
def c9StateDictA : StateDict :=
  [("embed.W_E", T [5, 7]), ("blocks.0.attn.W_Q", T [2, 7, 3]),
   ("blocks.1.attn.W_Q", T [4, 7, 6]), ("blocks.0.mlp.W_in", T [7, 11])]

def c9StateDictB : StateDict :=
  [("embed.W_E", T [5, 7]), ("blocks.1.attn.W_Q", T [4, 7, 6]),
   ("blocks.0.attn.W_Q", T [2, 7, 3]), ("blocks.0.mlp.W_in", T [7, 11])]

/-- A consistent mapping and a permutation of it. -/
def c9WitnessSd : StateDict :=
  [("embed.W_E", T [5, 7]), ("blocks.0.attn.W_Q", T [2, 7, 3]),
   ("blocks.0.mlp.W_in", T [7, 11])]

def c9WitnessSdP : StateDict :=
  [("blocks.0.mlp.W_in", T [7, 11]), ("blocks.0.attn.W_Q", T [2, 7, 3]),
   ("embed.W_E", T [5, 7])]

/-- The per-field values every tensor of `c9WitnessSd` agrees with. -/
def c9V : Field → Nat
  | .d_vocab => 5
  | .d_model => 7
  | .d_head => 3
  | .n_head => 2
  | .d_mlp => 11

/-- An agreeing mapping containing a tensor no registry pattern matches,
and a permutation of it: both runs fail, with the same error. -/
def c9ErrWitnessSd : StateDict :=
  [("embed.W_E", T [5, 7]), ("blocks.0.attn.W_Q", T [2, 7, 3]), ("foo", T [1])]

def c9ErrWitnessSdP : StateDict :=
  [("foo", T [1]), ("blocks.0.attn.W_Q", T [2, 7, 3]), ("embed.W_E", T [5, 7])]

/-- Two mappings with identical names and shapes but different stored
numeric contents. -/
def c10StateDictA : StateDict := [("blocks.0.attn.W_Q", ⟨[2, 7, 3], [1, 2]⟩)]

def c10StateDictB : StateDict := [("blocks.0.attn.W_Q", ⟨[2, 7, 3], [9]⟩)]

/-! ### Helper lemmas about `param_dict` -/

lemma ParamDict.get_set_same (pd : ParamDict) (f : Field) (v : Nat) :
    (pd.set f v).get f = some v := by
  cases f <;> rfl

lemma ParamDict.get_set_other (pd : ParamDict) (f g : Field) (v : Nat) (h : g ≠ f) :
    (pd.set g v).get f = pd.get f := by
  cases g <;> cases f <;> first | rfl | exact absurd rfl h

lemma ParamDict.set_n_ctx (pd : ParamDict) (f : Field) (v : Nat) :
    (pd.set f v).n_ctx = pd.n_ctx := by
  cases f <;> rfl

lemma ParamDict.set_n_layers (pd : ParamDict) (f : Field) (v : Nat) :
    (pd.set f v).n_layers = pd.n_layers := by
  cases f <;> rfl

lemma initParamDict_get (n_ctx n_layers : Nat) (f : Field) :
    (initParamDict n_ctx n_layers).get f = none := by
  cases f <;> rfl

/-! ### Helper lemmas about the pattern-match bookkeeping -/

lemma extract_true_key_eq (module_name : String) :
    _extract_true_key (regex_dict module_name) =
      match regexOut module_name with
      | [p] => Except.ok p
      | out => Except.error
          (.ambiguousPattern out _HOOKED_TRANSFORMER_MODULE_REGEXES_REGISTRY) := rfl

lemma ruleObservation_cons_same (module : Tensor) (f : Field) (dim : Nat)
    (rest : List (Field × Nat)) :
    ruleObservation module ((f, dim) :: rest) f = module.size.get? dim := by
  unfold ruleObservation patternFieldDim
  rw [List.find?_cons_of_pos _ (by simp)]
  rfl

lemma ruleObservation_cons_other (module : Tensor) (f g : Field) (dim : Nat)
    (rest : List (Field × Nat)) (h : g ≠ f) :
    ruleObservation module ((g, dim) :: rest) f = ruleObservation module rest f := by
  unfold ruleObservation patternFieldDim
  rw [List.find?_cons_of_neg _ (by simp [h])]

/-! ### Helper lemmas about `applyRules` (the inner per-pattern loop) -/

lemma applyRules_error (module : Tensor) :
    ∀ (rules : List (Field × Nat)) (pd : ParamDict) (e : InferError),
      applyRules module pd rules = .error e → ∃ dim, e = .dimOutOfRange dim := by
  intro rules
  induction rules with
  | nil =>
    intro pd e h
    simp [applyRules] at h
  | cons fd rest ih =>
    intro pd e h
    obtain ⟨key, dim⟩ := fd
    rw [applyRules] at h
    by_cases hk : (pd.get key).isNone = true
    · rw [if_pos hk] at h
      cases hv : module.size.get? dim with
      | some v => rw [hv] at h; exact ih _ _ h
      | none =>
        rw [hv] at h
        exact ⟨dim, (Except.error.inj h).symm⟩
    · rw [if_neg hk] at h
      exact ih _ _ h

lemma applyRules_ok_get (module : Tensor) (f : Field) :
    ∀ (rules : List (Field × Nat)) (pd pd' : ParamDict),
      applyRules module pd rules = .ok pd' →
      pd'.get f = (pd.get f).or (ruleObservation module rules f) := by
  intro rules
  induction rules with
  | nil =>
    intro pd pd' h
    simp [applyRules] at h
    subst h
    simp [ruleObservation, patternFieldDim]
  | cons fd rest ih =>
    intro pd pd' h
    obtain ⟨key, dim⟩ := fd
    rw [applyRules] at h
    by_cases hk : (pd.get key).isNone = true
    · rw [if_pos hk] at h
      cases hv : module.size.get? dim with
      | some v =>
        rw [hv] at h
        have hrec := ih _ _ h
        by_cases hkf : key = f
        · subst hkf
          rw [ParamDict.get_set_same] at hrec
          rw [hrec, ruleObservation_cons_same, hv,
            Option.eq_none_of_isNone hk]
          rfl
        · rw [ParamDict.get_set_other _ _ _ _ hkf] at hrec
          rw [hrec, ruleObservation_cons_other _ _ _ _ _ hkf]
      | none => rw [hv] at h; exact absurd h (by simp)
    · rw [if_neg hk] at h
      have hrec := ih _ _ h
      by_cases hkf : key = f
      · subst hkf
        cases hg : pd.get key with
        | none => rw [hg] at hk; simp at hk
        | some w => rw [hg] at hrec; exact hrec
      · rw [hrec, ruleObservation_cons_other _ _ _ _ _ hkf]

lemma applyRules_ok_dim (module : Tensor) (f : Field) :
    ∀ (rules : List (Field × Nat)) (pd pd' : ParamDict) (dim : Nat),
      applyRules module pd rules = .ok pd' → pd.get f = none →
      patternFieldDim rules f = some dim → ∃ v, module.size.get? dim = some v := by
  intro rules
  induction rules with
  | nil =>
    intro pd pd' dim _ _ hfd
    simp [patternFieldDim] at hfd
  | cons fd rest ih =>
    intro pd pd' dim h hnone hfd
    obtain ⟨key, d⟩ := fd
    rw [applyRules] at h
    by_cases hkf : key = f
    · subst hkf
      unfold patternFieldDim at hfd
      rw [List.find?_cons_of_pos _ (by simp)] at hfd
      simp at hfd
      subst hfd
      rw [if_pos (by rw [hnone]; rfl)] at h
      cases hv : module.size.get? d with
      | some v => exact ⟨v, rfl⟩
      | none => rw [hv] at h; exact absurd h (by simp)
    · unfold patternFieldDim at hfd
      rw [List.find?_cons_of_neg _ (by simp [hkf])] at hfd
      by_cases hk : (pd.get key).isNone = true
      · rw [if_pos hk] at h
        cases hv : module.size.get? d with
        | some v =>
          rw [hv] at h
          exact ih _ _ _ h (by rw [ParamDict.get_set_other _ _ _ _ hkf]; exact hnone) hfd
        | none => rw [hv] at h; exact absurd h (by simp)
      · rw [if_neg hk] at h
        exact ih _ _ _ h hnone hfd

lemma applyRules_ok_frame (module : Tensor) :
    ∀ (rules : List (Field × Nat)) (pd pd' : ParamDict),
      applyRules module pd rules = .ok pd' →
      pd'.n_ctx = pd.n_ctx ∧ pd'.n_layers = pd.n_layers := by
  intro rules
  induction rules with
  | nil =>
    intro pd pd' h
    simp [applyRules] at h
    subst h
    exact ⟨rfl, rfl⟩
  | cons fd rest ih =>
    intro pd pd' h
    obtain ⟨key, dim⟩ := fd
    rw [applyRules] at h
    by_cases hk : (pd.get key).isNone = true
    · rw [if_pos hk] at h
      cases hv : module.size.get? dim with
      | some v =>
        rw [hv] at h
        have hrec := ih _ _ h
        rw [ParamDict.set_n_ctx, ParamDict.set_n_layers] at hrec
        exact hrec
      | none => rw [hv] at h; exact absurd h (by simp)
    · rw [if_neg hk] at h
      exact ih _ _ h

/-! ### Helper lemmas about the per-tensor loop -/

lemma procEntry_ok (pd pd₁ : ParamDict) (module_name : String) (module : Tensor)
    (h : procEntry pd module_name module = .ok pd₁) :
    applyRules module pd (entryRules module_name) = .ok pd₁ := by
  unfold procEntry at h
  unfold entryRules
  cases hx : _extract_true_key (regex_dict module_name) with
  | error e => rw [hx] at h; exact absurd h (by simp)
  | ok pattern => rw [hx] at h; exact h

lemma procAll_ok_get (f : Field) :
    ∀ (sd : StateDict) (pd pd' : ParamDict),
      procAll pd sd = .ok pd' →
      pd'.get f = (pd.get f).or (specFirstObservation f sd) := by
  intro sd
  induction sd with
  | nil =>
    intro pd pd' h
    simp [procAll] at h
    subst h
    simp [specFirstObservation]
  | cons nt rest ih =>
    intro pd pd' h
    obtain ⟨module_name, module⟩ := nt
    rw [procAll] at h
    cases he : procEntry pd module_name module with
    | error e => rw [he] at h; exact absurd h (by simp)
    | ok pd₁ =>
      rw [he] at h
      have h1 := applyRules_ok_get module f (entryRules module_name) pd pd₁
        (procEntry_ok pd pd₁ module_name module he)
      have hrec := ih pd₁ pd' h
      rw [specFirstObservation]
      cases hpf : pd.get f with
      | some w =>
        rw [hpf] at h1
        rw [h1] at hrec
        rw [hrec]
        cases patternFieldDim (entryRules module_name) f <;> rfl
      | none =>
        rw [hpf] at h1
        cases hfd : patternFieldDim (entryRules module_name) f with
        | none =>
          rw [hrec, h1]
          unfold ruleObservation
          rw [hfd]
          rfl
        | some dim =>
          obtain ⟨v, hv⟩ := applyRules_ok_dim module f (entryRules module_name) pd pd₁
            dim (procEntry_ok pd pd₁ module_name module he) hpf hfd
          rw [hrec, h1]
          unfold ruleObservation
          rw [hfd]
          show (module.size.get? dim).or (specFirstObservation f rest) = module.size.get? dim
          rw [hv]
          rfl

lemma procAll_ok_frame :
    ∀ (sd : StateDict) (pd pd' : ParamDict),
      procAll pd sd = .ok pd' →
      pd'.n_ctx = pd.n_ctx ∧ pd'.n_layers = pd.n_layers := by
  intro sd
  induction sd with
  | nil =>
    intro pd pd' h
    simp [procAll] at h
    subst h
    exact ⟨rfl, rfl⟩
  | cons nt rest ih =>
    intro pd pd' h
    obtain ⟨module_name, module⟩ := nt
    rw [procAll] at h
    cases he : procEntry pd module_name module with
    | error e => rw [he] at h; exact absurd h (by simp)
    | ok pd₁ =>
      rw [he] at h
      have h1 := applyRules_ok_frame module (entryRules module_name) pd pd₁
        (procEntry_ok pd pd₁ module_name module he)
      have hrec := ih pd₁ pd' h
      exact ⟨hrec.1.trans h1.1, hrec.2.trans h1.2⟩

lemma finalize_ok (pd : ParamDict) (cfg : RawModelConfig)
    (h : finalize pd = .ok cfg) :
    (∀ f, pd.get f = some (cfgGet cfg f)) ∧ cfg.n_ctx = pd.n_ctx ∧
      cfg.n_layers = pd.n_layers := by
  obtain ⟨dv, dm, nc, dh, nh, dml, nl⟩ := pd
  cases dv with
  | none => exact absurd h (by simp [finalize])
  | some dv =>
  cases dm with
  | none => exact absurd h (by simp [finalize])
  | some dm =>
  cases dh with
  | none => exact absurd h (by simp [finalize])
  | some dh =>
  cases nh with
  | none => exact absurd h (by simp [finalize])
  | some nh =>
  cases dml with
  | none => exact absurd h (by simp [finalize])
  | some dml =>
  have hcfg : cfg = ⟨dv, dm, nc, dh, nh, dml, nl⟩ := (Except.ok.inj h).symm
  subst hcfg
  exact ⟨fun f => by cases f <;> rfl, rfl, rfl⟩

/-- Characterization of a successful inference run: every shape-derived
config field carries the first observation of that field in mapping order,
`n_ctx` is the caller-supplied value, and `n_layers` comes from
`_extract_n_layers`. -/
lemma infer_ok_spec (sd : StateDict) (n_ctx : Nat) (cfg : RawModelConfig)
    (h : _state_dict_to_model_config sd n_ctx = .ok cfg) :
    (∀ f, specFirstObservation f sd = some (cfgGet cfg f)) ∧
    cfg.n_ctx = n_ctx ∧ _extract_n_layers sd = .ok cfg.n_layers := by
  unfold _state_dict_to_model_config at h
  cases h1 : _extract_n_layers sd with
  | error e => rw [h1] at h; exact absurd h (by simp)
  | ok nl =>
    simp only [h1] at h
    cases h2 : procAll (initParamDict n_ctx nl) sd with
    | error e => simp only [h2] at h; exact absurd h (by simp)
    | ok pd =>
      simp only [h2] at h
      obtain ⟨hget, hnc, hnl⟩ := finalize_ok pd cfg h
      have hframe := procAll_ok_frame sd (initParamDict n_ctx nl) pd h2
      refine ⟨?_, ?_, ?_⟩
      · intro f
        have hg := procAll_ok_get f sd (initParamDict n_ctx nl) pd h2
        rw [initParamDict_get, hget f] at hg
        exact hg.symm
      · rw [hnc, hframe.1]
        rfl
      · rw [hnl, hframe.2]
        rfl

/-! ### Helper lemmas about `_extract_n_layers` -/

lemma firstDigitRun_append_nondigit :
    ∀ (pre t : List Char), (∀ c ∈ pre, c.isDigit = false) →
      firstDigitRun (pre ++ t) = firstDigitRun t := by
  intro pre
  induction pre with
  | nil => intro t _; rfl
  | cons c cs ih =>
    intro t h
    rw [List.cons_append, firstDigitRun, if_neg (by rw [h c (by simp)]; simp)]
    exact ih t (fun x hx => h x (by simp [hx]))

lemma matchElems_blocksFamily (cs : List Char)
    (h : matchElems blocksFamilyPattern cs = true) :
    ∃ t, cs = "blocks.".toList ++ t ∧ t.takeWhile Char.isDigit ≠ [] := by
  rw [show blocksFamilyPattern = [.lit ("blocks."), .digits, .lit (".")] from rfl,
    matchElems, Bool.and_eq_true] at h
  obtain ⟨hpre, hrest⟩ := h
  obtain ⟨t, ht⟩ := List.isPrefixOf_iff_prefix.mp hpre
  refine ⟨cs.drop ("blocks.".toList.length), ?_, ?_⟩
  · rw [← ht, List.drop_left]
  · rw [matchElems, Bool.and_eq_true] at hrest
    have := hrest.1
    simpa using this

lemma local_block_idx_eq_spec (key : String)
    (h : reMatch blocksFamilyPattern key = true) :
    local_block_idx key = specBlockIndex key := by
  obtain ⟨t, ht, hd⟩ := matchElems_blocksFamily key.toList h
  unfold local_block_idx specBlockIndex
  rw [ht, firstDigitRun_append_nondigit _ _ (by decide), List.drop_left]
  cases t with
  | nil => exact absurd rfl hd
  | cons c t₂ =>
    by_cases hc : c.isDigit
    · rw [firstDigitRun, if_pos (by rw [hc])]
      rw [List.takeWhile_cons, if_pos (by rw [hc])]
      rfl
    · rw [List.takeWhile_cons, if_neg (by rw [eq_false hc]; simp)] at hd
      exact absurd rfl hd

lemma if_gt_eq_max (h i : Nat) : (if i > h then i else h) = Nat.max h i := by
  rw [show Nat.max h i = if h ≤ i then i else h from rfl]
  split <;> split <;> omega

lemma blockKeys_cons_pos (key : String) (t : Tensor) (rest : StateDict)
    (h : reMatch blocksFamilyPattern key = true) :
    blockKeys ((key, t) :: rest) = key :: blockKeys rest := by
  unfold blockKeys
  rw [List.map_cons, List.filter_cons_of_pos h]

lemma blockKeys_cons_neg (key : String) (t : Tensor) (rest : StateDict)
    (h : reMatch blocksFamilyPattern key = false) :
    blockKeys ((key, t) :: rest) = blockKeys rest := by
  unfold blockKeys
  rw [List.map_cons, List.filter_cons_of_neg (by rw [h]; simp)]

lemma nLayersLoop_some :
    ∀ (sd : StateDict) (h : Nat),
      nLayersLoop (some h) sd =
        some ((blockKeys sd).foldl (fun acc k => Nat.max acc (local_block_idx k)) h) := by
  intro sd
  induction sd with
  | nil => intro h; rfl
  | cons nt rest ih =>
    intro h
    obtain ⟨key, t⟩ := nt
    rw [nLayersLoop]
    by_cases hm : reMatch blocksFamilyPattern key = true
    · rw [if_pos hm, blockKeys_cons_pos _ _ _ hm, List.foldl_cons, ih,
        if_gt_eq_max]
    · rw [if_neg hm, blockKeys_cons_neg _ _ _ (by simpa using hm), ih]

lemma nLayersLoop_none :
    ∀ (sd : StateDict),
      nLayersLoop none sd =
        match blockKeys sd with
        | [] => none
        | k :: ks =>
          some (ks.foldl (fun acc key => Nat.max acc (local_block_idx key))
            (local_block_idx k)) := by
  intro sd
  induction sd with
  | nil => rfl
  | cons nt rest ih =>
    obtain ⟨key, t⟩ := nt
    rw [nLayersLoop]
    by_cases hm : reMatch blocksFamilyPattern key = true
    · rw [if_pos hm, blockKeys_cons_pos _ _ _ hm, nLayersLoop_some]
    · rw [if_neg hm, blockKeys_cons_neg _ _ _ (by simpa using hm), ih]

/-- `_extract_n_layers` in closed form: an error when no key matches the
`blocks.<index>.` family, otherwise one plus the maximum of the extracted
indices. -/
lemma extract_n_layers_eq (sd : StateDict) :
    _extract_n_layers sd =
      match blockKeys sd with
      | [] => Except.error .noLayers
      | k :: ks =>
        Except.ok
          (((k :: ks).map local_block_idx).foldl Nat.max 0 + 1) := by
  unfold _extract_n_layers
  rw [nLayersLoop_none]
  cases hbk : blockKeys sd with
  | nil => rfl
  | cons k ks =>
    show Except.ok _ = Except.ok _
    congr 1
    rw [List.map_cons, List.foldl_cons, List.foldl_map,
      show Nat.max 0 (local_block_idx k) = local_block_idx k by simp]

lemma blockKeys_perm (sd sd' : StateDict) (h : sd'.Perm sd) :
    (blockKeys sd').Perm (blockKeys sd) :=
  (h.map Prod.fst).filter _

lemma extract_n_layers_perm (sd sd' : StateDict) (hperm : sd'.Perm sd) :
    _extract_n_layers sd' = _extract_n_layers sd := by
  rw [extract_n_layers_eq, extract_n_layers_eq]
  have hp := blockKeys_perm sd sd' hperm
  cases h1 : blockKeys sd' with
  | nil =>
    rw [h1] at hp
    rw [hp.symm.eq_nil]
  | cons k ks =>
    rw [h1] at hp
    cases h2 : blockKeys sd with
    | nil =>
      rw [h2] at hp
      exact absurd hp.eq_nil (by simp)
    | cons k2 ks2 =>
      rw [h2] at hp
      show Except.ok _ = Except.ok _
      congr 2
      exact (hp.map local_block_idx).foldl_eq 0

lemma blockKeys_eq_nil (sd : StateDict)
    (h : ∀ kv ∈ sd, reMatch blocksFamilyPattern kv.1 = false) :
    blockKeys sd = [] := by
  unfold blockKeys
  rw [List.filter_eq_nil_iff]
  intro k hk
  obtain ⟨kv, hkv, rfl⟩ := List.mem_map.mp hk
  rw [h kv hkv]
  simp

/-! ### Agreement: consistent checkpoints -/

lemma specFirstObservation_agree (v : Field → Nat) :
    ∀ (sd : StateDict), AgreesWith v sd → ∀ (f : Field) (w : Nat),
      specFirstObservation f sd = some w → w = v f := by
  intro sd
  induction sd with
  | nil =>
    intro _ f w h
    exact absurd h (by simp [specFirstObservation])
  | cons nt rest ih =>
    intro hag f w h
    obtain ⟨module_name, module⟩ := nt
    rw [specFirstObservation] at h
    cases hfd : patternFieldDim (entryRules module_name) f with
    | none =>
      rw [hfd] at h
      exact ih (fun x hx fd hfd2 => hag x (by simp [hx]) fd hfd2) f w h
    | some dim =>
      rw [hfd] at h
      unfold patternFieldDim at hfd
      cases hfind : (entryRules module_name).find? (fun fd => fd.1 == f) with
      | none => rw [hfind] at hfd; exact absurd hfd (by simp)
      | some fd0 =>
        rw [hfind] at hfd
        have hmem : fd0 ∈ entryRules module_name := List.mem_of_find?_eq_some hfind
        have hfeq : fd0.1 = f := by
          have := List.find?_some hfind
          simpa using this
        have hdim : fd0.2 = dim := by simpa using hfd
        have h' : module.size.get? dim = some w := h
        have hv := hag (module_name, module) (by simp) fd0 hmem
        rw [hdim, hfeq] at hv
        have hv' : module.size.get? dim = some (v f) := hv
        exact Option.some.inj (h'.symm.trans hv')

/-! ### Inference reads only names and shapes -/

lemma applyRules_size_congr (t t' : Tensor) (hs : t.size = t'.size) :
    ∀ (rules : List (Field × Nat)) (pd : ParamDict),
      applyRules t pd rules = applyRules t' pd rules := by
  intro rules
  induction rules with
  | nil => intro pd; rfl
  | cons fd rest ih =>
    intro pd
    obtain ⟨key, dim⟩ := fd
    simp only [applyRules]
    rw [hs]
    by_cases hk : (pd.get key).isNone = true
    · simp only [if_pos hk]
      cases t'.size.get? dim with
      | some v => exact ih _
      | none => rfl
    · simp only [if_neg hk]
      exact ih _

lemma procEntry_shape_congr (pd : ParamDict) (module_name : String) (t t' : Tensor)
    (hs : t.size = t'.size) :
    procEntry pd module_name t = procEntry pd module_name t' := by
  unfold procEntry
  cases _extract_true_key (regex_dict module_name) with
  | error e => rfl
  | ok pattern => exact applyRules_size_congr t t' hs _ pd

lemma procAll_shape_congr :
    ∀ (sd₁ sd₂ : StateDict),
      sd₁.map (fun kt => (kt.1, kt.2.size)) = sd₂.map (fun kt => (kt.1, kt.2.size)) →
      ∀ pd, procAll pd sd₁ = procAll pd sd₂ := by
  intro sd₁
  induction sd₁ with
  | nil =>
    intro sd₂ h pd
    cases sd₂ with
    | nil => rfl
    | cons b l₂ => exact absurd h (by simp)
  | cons a l₁ ih =>
    intro sd₂ h pd
    cases sd₂ with
    | nil => exact absurd h (by simp)
    | cons b l₂ =>
      obtain ⟨n₁, t₁⟩ := a
      obtain ⟨n₂, t₂⟩ := b
      simp only [List.map_cons, List.cons.injEq, Prod.mk.injEq] at h
      obtain ⟨⟨hn, hs⟩, ht⟩ := h
      subst hn
      simp only [procAll]
      rw [procEntry_shape_congr pd n₁ t₁ t₂ hs]
      cases procEntry pd n₁ t₂ with
      | error e => rfl
      | ok pd₁ => exact ih l₂ ht pd₁

lemma blockKeys_keys_congr (sd₁ sd₂ : StateDict)
    (h : sd₁.map Prod.fst = sd₂.map Prod.fst) :
    blockKeys sd₁ = blockKeys sd₂ := by
  unfold blockKeys
  rw [h]

/-! ### Registry disjointness: no name matches two patterns -/

lemma incompatibleLits_no_common_prefix :
    ∀ (l1 l2 cs : List Char), incompatibleLits l1 l2 = true →
      l1.isPrefixOf cs = true → l2.isPrefixOf cs = true → False := by
  intro l1
  induction l1 with
  | nil => intro l2 cs h _ _; simp [incompatibleLits] at h
  | cons c1 t1 ih =>
    intro l2 cs h h1 h2
    cases l2 with
    | nil => simp [incompatibleLits] at h
    | cons c2 t2 =>
      cases cs with
      | nil => simp [List.isPrefixOf] at h1
      | cons c cs2 =>
        simp only [List.isPrefixOf_cons₂, Bool.and_eq_true, beq_iff_eq] at h1 h2
        rw [incompatibleLits] at h
        by_cases hc : c1 = c2
        · rw [if_pos hc] at h
          exact ih t2 cs2 h h1.2 h2.2
        · exact hc (h1.1.trans h2.1.symm)

lemma tailChk_sound :
    ∀ (p1 p2 : Pattern), tailChk p1 p2 = true → ∀ (r : List Char),
      matchElems p1 r = true → matchElems p2 r = true → False := by
  intro p1 p2 h r h1 h2
  cases p1 with
  | nil => simp [tailChk] at h
  | cons e1 q1 =>
    cases e1 with
    | lit s => simp [tailChk] at h
    | alt a b => simp [tailChk] at h
    | digits =>
      cases q1 with
      | nil => simp [tailChk] at h
      | cons e1b q1b =>
        cases e1b with
        | digits => simp [tailChk] at h
        | alt a b => simp [tailChk] at h
        | lit t1 =>
          cases p2 with
          | nil => simp [tailChk] at h
          | cons e2 q2 =>
            cases e2 with
            | lit s => simp [tailChk] at h
            | alt a b => simp [tailChk] at h
            | digits =>
              cases q2 with
              | nil => simp [tailChk] at h
              | cons e2b q2b =>
                cases e2b with
                | digits => simp [tailChk] at h
                | alt a b => simp [tailChk] at h
                | lit t2 =>
                  rw [tailChk] at h
                  rw [matchElems, Bool.and_eq_true] at h1 h2
                  obtain ⟨_, h1b⟩ := h1
                  obtain ⟨_, h2b⟩ := h2
                  rw [matchElems, Bool.and_eq_true] at h1b h2b
                  exact incompatibleLits_no_common_prefix _ _ _ h h1b.1 h2b.1

lemma disjChk_sound (p q : Pattern) (h : disjChk p q = true) : PatDisjoint p q := by
  intro cs hcontra
  obtain ⟨hp, hq⟩ := hcontra
  cases p with
  | nil => simp [disjChk] at h
  | cons e1 p1 =>
    cases e1 with
    | digits => simp [disjChk] at h
    | alt a b => simp [disjChk] at h
    | lit s1 =>
      cases q with
      | nil => simp [disjChk] at h
      | cons e2 p2 =>
        cases e2 with
        | digits => simp [disjChk] at h
        | alt a b => simp [disjChk] at h
        | lit s2 =>
          simp only [disjChk, Bool.or_eq_true, Bool.and_eq_true, beq_iff_eq] at h
          rw [matchElems, Bool.and_eq_true] at hp hq
          rcases h with h | ⟨hs, ht⟩
          · exact incompatibleLits_no_common_prefix _ _ _ h hp.1 hq.1
          · subst hs
            exact tailChk_sound p1 p2 ht _ hp.2 hq.2

lemma registry_patterns_pairwise :
    (_HOOKED_TRANSFORMER_MODULE_REGEXES_REGISTRY.map Prod.fst).Pairwise PatDisjoint := by
  have hchk : (_HOOKED_TRANSFORMER_MODULE_REGEXES_REGISTRY.map Prod.fst).Pairwise
      (fun p q => disjChk p q = true) := by decide
  exact hchk.imp (fun h => disjChk_sound _ _ h)

lemma regexOut_eq_filter (module_name : String) :
    regexOut module_name =
      (_HOOKED_TRANSFORMER_MODULE_REGEXES_REGISTRY.map Prod.fst).filter
        (fun p => reMatch p module_name) := by
  unfold regexOut regex_dict
  generalize _HOOKED_TRANSFORMER_MODULE_REGEXES_REGISTRY = l
  induction l with
  | nil => rfl
  | cons pr rest ih =>
    cases hm : reMatch pr.1 module_name with
    | true => simp [List.filter_cons, hm, ih]
    | false => simp [List.filter_cons, hm, ih]

/-- With this registry, no tensor name matches more than one pattern: the
match list has length zero or one. -/
lemma regexOut_length_le_one (module_name : String) :
    (regexOut module_name).length ≤ 1 := by
  rw [regexOut_eq_filter]
  have hpw : ((_HOOKED_TRANSFORMER_MODULE_REGEXES_REGISTRY.map Prod.fst).filter
      (fun p => reMatch p module_name)).Pairwise PatDisjoint :=
    registry_patterns_pairwise.filter _
  cases hf : (_HOOKED_TRANSFORMER_MODULE_REGEXES_REGISTRY.map Prod.fst).filter
      (fun p => reMatch p module_name) with
  | nil => simp
  | cons p rest =>
    cases rest with
    | nil => simp
    | cons q rest2 =>
      exfalso
      rw [hf] at hpw
      have hRpq : PatDisjoint p q := (List.pairwise_cons.mp hpw).1 q (by simp)
      have hp : reMatch p module_name = true := by
        have hmem : p ∈ (_HOOKED_TRANSFORMER_MODULE_REGEXES_REGISTRY.map Prod.fst).filter
            (fun p => reMatch p module_name) := by rw [hf]; simp
        exact (List.mem_filter.mp hmem).2
      have hq : reMatch q module_name = true := by
        have hmem : q ∈ (_HOOKED_TRANSFORMER_MODULE_REGEXES_REGISTRY.map Prod.fst).filter
            (fun p => reMatch p module_name) := by rw [hf]; simp
        exact (List.mem_filter.mp hmem).2
      exact hRpq module_name.toList ⟨hp, hq⟩

/-! ### Outcome of the loop on agreeing mappings -/

lemma or_if_or (a b : Bool) (x : Nat) :
    ((if a = true then some x else none).or (if b = true then some x else none)) =
      (if (a || b) = true then some x else none) := by
  cases a <;> cases b <;> simp

lemma applyRules_agree (t : Tensor) (v : Field → Nat) :
    ∀ (rules : List (Field × Nat)),
      (∀ fd ∈ rules, t.size.get? fd.2 = some (v fd.1)) →
      ∀ (pd : ParamDict),
        ∃ pd', applyRules t pd rules = .ok pd' ∧
          (∀ f, pd'.get f = (pd.get f).or
            (if rules.any (fun fd => fd.1 == f) then some (v f) else none)) := by
  intro rules
  induction rules with
  | nil =>
    intro _ pd
    exact ⟨pd, rfl, fun f => by simp⟩
  | cons fd rest ih =>
    intro hag pd
    obtain ⟨g, d⟩ := fd
    have hgd : t.size.get? d = some (v g) := hag (g, d) (by simp)
    have hrest : ∀ fd ∈ rest, t.size.get? fd.2 = some (v fd.1) :=
      fun fd hfd => hag fd (by simp [hfd])
    rw [applyRules]
    by_cases hk : (pd.get g).isNone = true
    · rw [if_pos hk, hgd]
      obtain ⟨pd', hpd', hchar⟩ := ih hrest (pd.set g (v g))
      refine ⟨pd', hpd', fun f => ?_⟩
      by_cases hgf : g = f
      · subst hgf
        rw [hchar g, ParamDict.get_set_same, Option.eq_none_of_isNone hk]
        simp
      · rw [hchar f, ParamDict.get_set_other _ _ _ _ hgf]
        have hb : (g == f) = false := by simpa using hgf
        simp only [List.any_cons, hb, Bool.false_or]
    · rw [if_neg hk]
      obtain ⟨pd', hpd', hchar⟩ := ih hrest pd
      refine ⟨pd', hpd', fun f => ?_⟩
      by_cases hgf : g = f
      · subst hgf
        cases hpg : pd.get g with
        | none => rw [hpg] at hk; simp at hk
        | some w => rw [hchar g, hpg]; rfl
      · rw [hchar f]
        have hb : (g == f) = false := by simpa using hgf
        simp only [List.any_cons, hb, Bool.false_or]

lemma procAll_agree (v : Field → Nat) :
    ∀ (sd : StateDict), AgreesWith v sd → allUniqueB sd = true →
      ∀ (pd : ParamDict),
        ∃ pd', procAll pd sd = .ok pd' ∧
          (∀ f, pd'.get f = (pd.get f).or
            (if fieldObservedB f sd then some (v f) else none)) ∧
          pd'.n_ctx = pd.n_ctx ∧ pd'.n_layers = pd.n_layers := by
  intro sd
  induction sd with
  | nil =>
    intro _ _ pd
    exact ⟨pd, rfl, fun f => by simp [fieldObservedB], rfl, rfl⟩
  | cons nt rest ih =>
    intro hag hau pd
    obtain ⟨name, t⟩ := nt
    rw [allUniqueB, List.all_cons, Bool.and_eq_true] at hau
    obtain ⟨hlen, haurest⟩ := hau
    obtain ⟨p, hp⟩ := List.length_eq_one.mp (by simpa using hlen)
    have hok : _extract_true_key (regex_dict name) = Except.ok p := by
      rw [extract_true_key_eq, hp]
    have hagt : ∀ fd ∈ entryRules name, t.size.get? fd.2 = some (v fd.1) :=
      fun fd hfd => hag (name, t) (by simp) fd hfd
    obtain ⟨pd₁, hpd₁, hchar₁⟩ := applyRules_agree t v (entryRules name) hagt pd
    have hproc : procEntry pd name t = .ok pd₁ := by
      unfold procEntry
      simp only [hok]
      rw [show (_HOOKED_TRANSFORMER_MODULE_REGEXES_REGISTRY.lookup p).getD [] =
        entryRules name by unfold entryRules; rw [hok]]
      exact hpd₁
    have hagrest : AgreesWith v rest :=
      fun x hx fd hfd => hag x (by simp [hx]) fd hfd
    obtain ⟨pd', hpd', hchar', hnc, hnl⟩ := ih hagrest haurest pd₁
    have hframe₁ := applyRules_ok_frame t (entryRules name) pd pd₁ hpd₁
    refine ⟨pd', ?_, ?_, hnc.trans hframe₁.1, hnl.trans hframe₁.2⟩
    · rw [procAll]
      simp only [hproc]
      exact hpd'
    · intro f
      rw [hchar' f, hchar₁ f, Option.or_assoc, or_if_or]
      rfl

lemma procAll_bad (v : Field → Nat) :
    ∀ (sd : StateDict), AgreesWith v sd → allUniqueB sd = false →
      ∀ (pd : ParamDict), procAll pd sd = .error
        (.ambiguousPattern [] _HOOKED_TRANSFORMER_MODULE_REGEXES_REGISTRY) := by
  intro sd
  induction sd with
  | nil => intro _ h _; simp [allUniqueB] at h
  | cons nt rest ih =>
    intro hag hau pd
    obtain ⟨name, t⟩ := nt
    rw [allUniqueB, List.all_cons] at hau
    by_cases hlen : ((regexOut name).length == 1) = true
    · rw [hlen, Bool.true_and] at hau
      obtain ⟨p, hp⟩ := List.length_eq_one.mp (by simpa using hlen)
      have hok : _extract_true_key (regex_dict name) = Except.ok p := by
        rw [extract_true_key_eq, hp]
      have hagt : ∀ fd ∈ entryRules name, t.size.get? fd.2 = some (v fd.1) :=
        fun fd hfd => hag (name, t) (by simp) fd hfd
      obtain ⟨pd₁, hpd₁, _⟩ := applyRules_agree t v (entryRules name) hagt pd
      have hproc : procEntry pd name t = .ok pd₁ := by
        unfold procEntry
        simp only [hok]
        rw [show (_HOOKED_TRANSFORMER_MODULE_REGEXES_REGISTRY.lookup p).getD [] =
          entryRules name by unfold entryRules; rw [hok]]
        exact hpd₁
      have hagrest : AgreesWith v rest :=
        fun x hx fd hfd => hag x (by simp [hx]) fd hfd
      rw [procAll]
      simp only [hproc]
      exact ih hagrest hau pd₁
    · have h0 : regexOut name = [] := by
        have hle := regexOut_length_le_one name
        cases hx : regexOut name with
        | nil => rfl
        | cons a as =>
          rw [hx] at hle hlen
          cases as with
          | nil => simp at hlen
          | cons b bs => simp at hle
      have herr : _extract_true_key (regex_dict name) = Except.error
          (.ambiguousPattern [] _HOOKED_TRANSFORMER_MODULE_REGEXES_REGISTRY) := by
        rw [extract_true_key_eq, h0]
      have hproc : procEntry pd name t = Except.error
          (.ambiguousPattern [] _HOOKED_TRANSFORMER_MODULE_REGEXES_REGISTRY) := by
        unfold procEntry
        simp only [herr]
      rw [procAll]
      simp only [hproc]

/-! ### Permutation invariance of the Bool aggregates -/

lemma all_perm {α : Type} (p : α → Bool) {l l2 : List α} (h : l2.Perm l) :
    l2.all p = l.all p := by
  cases hx : l.all p with
  | true =>
    rw [List.all_eq_true] at hx
    rw [List.all_eq_true]
    exact fun x hx2 => hx x (h.subset hx2)
  | false =>
    cases hy : l2.all p with
    | false => rfl
    | true =>
      rw [List.all_eq_true] at hy
      have hforall : l.all p = true :=
        List.all_eq_true.mpr fun x hxl => hy x (h.symm.subset hxl)
      rw [hx] at hforall
      exact absurd hforall (by simp)

lemma any_perm {α : Type} (p : α → Bool) {l l2 : List α} (h : l2.Perm l) :
    l2.any p = l.any p := by
  cases hx : l.any p with
  | true =>
    rw [List.any_eq_true] at hx
    obtain ⟨x, hxl, hpx⟩ := hx
    rw [List.any_eq_true]
    exact ⟨x, h.symm.subset hxl, hpx⟩
  | false =>
    cases hy : l2.any p with
    | false => rfl
    | true =>
      rw [List.any_eq_true] at hy
      obtain ⟨x, hxl, hpx⟩ := hy
      have hexists : l.any p = true := List.any_eq_true.mpr ⟨x, h.subset hxl, hpx⟩
      rw [hx] at hexists
      exact absurd hexists (by simp)

lemma paramDict_ext (pd1 pd2 : ParamDict)
    (hget : ∀ f, pd1.get f = pd2.get f) (hnc : pd1.n_ctx = pd2.n_ctx)
    (hnl : pd1.n_layers = pd2.n_layers) : pd1 = pd2 := by
  obtain ⟨a1, b1, c1, d1, e1, f1, g1⟩ := pd1
  obtain ⟨a2, b2, c2, d2, e2, f2, g2⟩ := pd2
  have h1 : a1 = a2 := hget .d_vocab
  have h2 : b1 = b2 := hget .d_model
  have h3 : d1 = d2 := hget .d_head
  have h4 : e1 = e2 := hget .n_head
  have h5 : f1 = f2 := hget .d_mlp
  have h6 : c1 = c2 := hnc
  have h7 : g1 = g2 := hnl
  rw [h1, h2, h3, h4, h5, h6, h7]

/-! ### The claims -/

set_option maxRecDepth 10000 in
/-- Claim C1: on the spec §8 example mapping — tensors for `blocks.0.*`
through `blocks.11.*`, a `blocks.23.attn.W_Q` of shape `[8, 512, 64]`,
`embed.W_E` of shape `[50000, 512]`, and the remaining tensors of a
complete checkpoint — config inference returns a config with
`n_layers = 24`, `n_head = 8`, `d_head = 64`, `d_vocab = 50000`,
`d_model = 512`, and `n_ctx = 10` when the caller does not override the
`n_ctx` argument (the call below uses the default). -/
theorem c1_example_checkpoint_inference :
    _state_dict_to_model_config c1StateDict =
      Except.ok ⟨50000, 512, 10, 64, 8, 2048, 24⟩ := by
  decide

/-- Claim C2: for every mapping containing at least one tensor name of the
`blocks.<index>.*` family, the inferred `n_layers` equals one plus the
maximum integer index appearing in that position across all such names
(`Nat`, so no upper bound is imposed on the index — see the witness, whose
single index is `10^29`-sized). -/
theorem c2_n_layers_max_index (sd : StateDict) (h : blockKeys sd ≠ []) :
    _extract_n_layers sd =
      Except.ok (((blockKeys sd).map specBlockIndex).foldl Nat.max 0 + 1) := by
  rw [extract_n_layers_eq]
  cases hbk : blockKeys sd with
  | nil => exact absurd hbk h
  | cons k ks =>
    show Except.ok _ = Except.ok _
    congr 2
    rw [← hbk]
    have hcong : (blockKeys sd).map local_block_idx =
        (blockKeys sd).map specBlockIndex := by
      apply List.map_congr_left
      intro k2 hk2
      apply local_block_idx_eq_spec
      unfold blockKeys at hk2
      exact (List.mem_filter.mp hk2).2
    rw [← hcong, hbk]

theorem c2_witness :
    blockKeys c2StateDict ≠ [] ∧
    _extract_n_layers c2StateDict =
      Except.ok (((blockKeys c2StateDict).map specBlockIndex).foldl Nat.max 0 + 1) ∧
    _extract_n_layers c2StateDict = Except.ok (123456789012345678901234567890 + 1) :=
  ⟨by decide, c2_n_layers_max_index c2StateDict (by decide), by decide⟩

/-- Claim C3 (amended): when zero or more than one registry pattern match a
tensor name, `_extract_true_key` fails with the `AssertionError` modelled
by `InferError.ambiguousPattern`, whose payload is the list of matching
patterns and the registry state — not the offending tensor's name, contrary
to the claim as stated (see the counterexample); when exactly one pattern
matches, the key is returned and processing that tensor can never produce
such an error. -/
theorem c3_unique_match_check (module_name : String) :
    ((regexOut module_name).length ≠ 1 →
      _extract_true_key (regex_dict module_name) =
        Except.error (.ambiguousPattern (regexOut module_name)
          _HOOKED_TRANSFORMER_MODULE_REGEXES_REGISTRY)) ∧
    (∀ p, regexOut module_name = [p] →
      _extract_true_key (regex_dict module_name) = Except.ok p) ∧
    ((regexOut module_name).length = 1 →
      ∀ (pd : ParamDict) (t : Tensor) (l : List Pattern)
        (r : List (Pattern × List (Field × Nat))),
        procEntry pd module_name t ≠ Except.error (.ambiguousPattern l r)) := by
  refine ⟨?_, ?_, ?_⟩
  · intro hne
    rw [extract_true_key_eq]
    cases hout : regexOut module_name with
    | nil => rfl
    | cons p rest =>
      cases rest with
      | nil => rw [hout] at hne; simp at hne
      | cons q rest2 => rfl
  · intro p hp
    rw [extract_true_key_eq, hp]
  · intro hlen pd t l r hcontra
    cases hout : regexOut module_name with
    | nil => rw [hout] at hlen; simp at hlen
    | cons p rest =>
      cases rest with
      | cons q rest2 => rw [hout] at hlen; simp at hlen
      | nil =>
        have hok : _extract_true_key (regex_dict module_name) = Except.ok p := by
          rw [extract_true_key_eq, hout]
        unfold procEntry at hcontra
        simp only [hok] at hcontra
        obtain ⟨dim, hdim⟩ := applyRules_error t _ pd _ hcontra
        exact absurd hdim (by simp)

/-- Counterexample to C3 as stated: two mappings whose offending tensors
have different names (`foo` resp. `bar`) make inference fail with the very
same error value, so the raised error cannot name the offending tensor
(its Python message interpolates only the match list `out` and the
registry). -/
theorem c3_counterexample :
    _state_dict_to_model_config c3StateDictFoo 10 =
      Except.error (.ambiguousPattern [] _HOOKED_TRANSFORMER_MODULE_REGEXES_REGISTRY) ∧
    _state_dict_to_model_config c3StateDictBar 10 =
      Except.error (.ambiguousPattern [] _HOOKED_TRANSFORMER_MODULE_REGEXES_REGISTRY) ∧
    ("foo" : String) ≠ "bar" :=
  ⟨by decide, by decide, by decide⟩

theorem c3_witness :
    regexOut "embed.W_E" = [[RElem.lit ("embed.W_E")]] ∧
    _extract_true_key (regex_dict "embed.W_E") =
      Except.ok [RElem.lit ("embed.W_E")] :=
  ⟨by decide, (c3_unique_match_check "embed.W_E").2.1 _ (by decide)⟩

/-- Claim C4: on every successful inference run, each shape-derived config
field equals `tensorShape[dimensionIndex]` taken from the first tensor, in
mapping order, whose matched pattern lists that field
(`specFirstObservation`); and processing any later tensor leaves an
already-resolved field unchanged. -/
theorem c4_first_observation_wins (sd : StateDict) (n_ctx : Nat)
    (cfg : RawModelConfig)
    (h : _state_dict_to_model_config sd n_ctx = Except.ok cfg) :
    (∀ f, specFirstObservation f sd = some (cfgGet cfg f)) ∧
    (∀ (pd pd₁ : ParamDict) (module_name : String) (t : Tensor) (f : Field) (w : Nat),
      pd.get f = some w → procEntry pd module_name t = Except.ok pd₁ →
      pd₁.get f = some w) := by
  refine ⟨(infer_ok_spec sd n_ctx cfg h).1, ?_⟩
  intro pd pd₁ module_name t f w hw he
  have h1 := applyRules_ok_get t f (entryRules module_name) pd pd₁
    (procEntry_ok pd pd₁ module_name t he)
  rw [hw] at h1
  exact h1

theorem c4_witness :
    specFirstObservation Field.d_vocab c4StateDict =
      some (cfgGet ⟨13, 7, 10, 3, 2, 11, 1⟩ Field.d_vocab) :=
  (c4_first_observation_wins c4StateDict 10 ⟨13, 7, 10, 3, 2, 11, 1⟩ (by decide)).1
    Field.d_vocab

/-- Claim C5 (amended): if, after the loop has processed every tensor, any
shape-derived field is still unresolved, inference fails with the bare
final `assert` modelled by `InferError.incompleteInference` — which does
not list the unresolved fields, contrary to the claim as stated (see the
counterexample); in particular, the otherwise-complete mapping
`c5StateDict`, from which every tensor matching the `mlp.W_in` pattern is
omitted, fails with exactly this error (because `d_mlp` is unresolved). -/
theorem c5_incomplete_inference :
    (∀ (sd : StateDict) (n_ctx nl : Nat) (pd : ParamDict),
      _extract_n_layers sd = Except.ok nl →
      procAll (initParamDict n_ctx nl) sd = Except.ok pd →
      (pd.d_vocab = none ∨ pd.d_model = none ∨ pd.d_head = none ∨
        pd.n_head = none ∨ pd.d_mlp = none) →
      _state_dict_to_model_config sd n_ctx = Except.error .incompleteInference) ∧
    _state_dict_to_model_config c5StateDict 10 = Except.error .incompleteInference := by
  constructor
  · intro sd n_ctx nl pd h1 h2 h3
    unfold _state_dict_to_model_config
    simp only [h1, h2]
    unfold finalize
    split
    · simp_all
    · rfl
  · decide

/-- Counterexample to C5 as stated: a mapping leaving `d_mlp` unresolved
and a mapping leaving `d_head` and `n_head` unresolved fail with the very
same error value, so the raised error cannot be listing the unresolved
fields (the Python `assert` on line 157 has no message at all). -/
theorem c5_counterexample :
    _state_dict_to_model_config c5MissingDMlp 10 =
      Except.error .incompleteInference ∧
    _state_dict_to_model_config c5MissingHeads 10 =
      Except.error .incompleteInference ∧
    c5MissingDMlp ≠ c5MissingHeads :=
  ⟨by decide, by decide, by decide⟩

theorem c5_witness :
    _state_dict_to_model_config c5WitnessSd 10 =
      Except.error .incompleteInference :=
  c5_incomplete_inference.1 c5WitnessSd 10 1
    ⟨none, none, 10, none, none, some 11, 1⟩ (by decide) (by decide)
    (Or.inl rfl)

/-- Claim C6: when no tensor name matches the `blocks.<index>.*` family
(the code's `blocks\.\d+\.` regex), inference fails — `highest_block_idx`
stays `None` and `None + 1` raises, modelled as `InferError.noLayers` —
rather than returning a config. -/
theorem c6_no_block_family_error (sd : StateDict) (n_ctx : Nat)
    (h : ∀ kv ∈ sd, reMatch blocksFamilyPattern kv.1 = false) :
    _state_dict_to_model_config sd n_ctx = Except.error .noLayers := by
  have hx : _extract_n_layers sd = Except.error .noLayers := by
    rw [extract_n_layers_eq, blockKeys_eq_nil sd h]
  unfold _state_dict_to_model_config
  simp only [hx]

theorem c6_witness :
    _state_dict_to_model_config c6StateDict 10 = Except.error .noLayers :=
  c6_no_block_family_error c6StateDict 10 (by decide)

/-- Claim C7: for both persisters, when the generated key
`{num_tokens_trained}.pt` already exists in the collection, `save_model`
fails with the overwrite `ValueError` before any write: the returned
collection state is unchanged and the trace contains only the existence
check; moreover (last two conjuncts) in every run — success path included —
the first backend operation issued is the existence check, so it precedes
any write. -/
theorem c7_overwrite_protection (p : LocalPersister) (fs : Collection)
    (m : TorchModule) (n : Nat) (sp : S3Persister) (s3 : S3State)
    (hfault : s3.headFault = none) :
    (keyExists fs (localSavePath p n) = true →
      LocalPersister.save_model p fs m n =
        ([FsOp.checkExists (localSavePath p n)], fs,
          Except.error (SaveError.overwrite (localSavePath p n)))) ∧
    (keyExists s3.objects (s3ObjectName n) = true →
      S3Persister.save_model sp s3 m n =
        ([S3Op.headObject (s3ObjectName n)], s3,
          Except.error (SaveError.overwrite
            (sp.collection_location ++ "/" ++ s3ObjectName n)))) ∧
    (LocalPersister.save_model p fs m n).1.head? =
      some (FsOp.checkExists (localSavePath p n)) ∧
    (S3Persister.save_model sp s3 m n).1.head? =
      some (S3Op.headObject (s3ObjectName n)) := by
  refine ⟨?_, ?_, ?_, ?_⟩
  · intro hex
    unfold LocalPersister.save_model
    rw [if_pos hex]
  · intro hex
    simp only [S3Persister.save_model, S3Persister._save_overwrite_protection,
      head_object, hfault, hex, if_true]
  · unfold LocalPersister.save_model
    by_cases hex : keyExists fs (localSavePath p n) = true
    · rw [if_pos hex]
      rfl
    · rw [if_neg hex]
      rfl
  · simp only [S3Persister.save_model, S3Persister._save_overwrite_protection,
      head_object, hfault]
    by_cases hex : keyExists s3.objects (s3ObjectName n) = true
    · simp [hex]
    · simp [hex]

theorem c7_witness :
    LocalPersister.save_model c7Persister c7Fs c7Model 5 =
      ([FsOp.checkExists ("models/5.pt")], c7Fs,
        Except.error (SaveError.overwrite ("models/5.pt"))) ∧
    S3Persister.save_model c7S3Persister c7S3 c7Model 5 =
      ([S3Op.headObject ("5.pt")], c7S3,
        Except.error (SaveError.overwrite ("bucket/5.pt"))) := by
  have h := c7_overwrite_protection c7Persister c7Fs c7Model 5 c7S3Persister c7S3
    (by decide)
  exact ⟨h.1 (by decide), h.2.1 (by decide)⟩

/-- Claim C8: when the backend's existence check fails with a `ClientError`
whose code is not `'404'`, `save_model` propagates the distinct
`ValueError("Expected 404 ...")` — modelled as
`SaveError.unexpectedClientError`, a different constructor from the
overwrite error and from any not-found outcome — leaving the bucket
unchanged and uploading nothing; and (second conjunct) an upload appears
in the trace only when the existence check answered exactly "not found"
(`ClientError` `'404'`). -/
theorem c8_backend_error_propagation (sp : S3Persister) (s3 : S3State)
    (m : TorchModule) (n : Nat) :
    (∀ code, s3.headFault = some code → code ≠ "404" →
      S3Persister.save_model sp s3 m n =
        ([S3Op.headObject (s3ObjectName n)], s3,
          Except.error (SaveError.unexpectedClientError code))) ∧
    (∀ key blob,
      S3Op.uploadFileobj key blob ∈ (S3Persister.save_model sp s3 m n).1 →
      head_object s3 (s3ObjectName n) = HeadResult.clientError "404") := by
  constructor
  · intro code hf hne
    simp only [S3Persister.save_model, S3Persister._save_overwrite_protection,
      head_object, hf]
    rw [if_neg hne]
  · intro key blob hmem
    simp only [S3Persister.save_model, S3Persister._save_overwrite_protection] at hmem
    cases hh : head_object s3 (s3ObjectName n) with
    | found => simp only [hh] at hmem; simp at hmem
    | clientError code =>
      simp only [hh] at hmem
      by_cases hc : code = "404"
      · rw [hc]
      · rw [if_neg hc] at hmem
        simp at hmem

theorem c8_witness :
    S3Persister.save_model c8S3Persister c8S3 c8Model 7 =
      ([S3Op.headObject ("7.pt")], c8S3,
        Except.error (SaveError.unexpectedClientError ("403"))) :=
  (c8_backend_error_propagation c8S3Persister c8S3 c8Model 7).1 "403"
    (by decide) (by decide)

/-- Claim C9 (amended): for mappings whose tensors agree, field by field,
on the values their matched patterns extract (the spec's own "repeated
structural tensors are expected to agree" premise), inference is fully
order-independent: a permutation of the same name-to-tensor entries yields
the identical outcome — the same config, or the same error. Without that
premise first-observation-wins makes the resulting config order-dependent,
as the counterexample shows. -/
theorem c9_permutation_with_agreement (sd sd' : StateDict) (n_ctx : Nat)
    (v : Field → Nat) (hperm : sd'.Perm sd) (hagree : AgreesWith v sd) :
    _state_dict_to_model_config sd' n_ctx = _state_dict_to_model_config sd n_ctx := by
  have hagree' : AgreesWith v sd' := fun nt hnt fd hfd =>
    hagree nt (hperm.subset hnt) fd hfd
  have hE : _extract_n_layers sd' = _extract_n_layers sd :=
    extract_n_layers_perm sd sd' hperm
  unfold _state_dict_to_model_config
  rw [hE]
  cases hEx : _extract_n_layers sd with
  | error e => rfl
  | ok nl =>
    show (match procAll (initParamDict n_ctx nl) sd' with
      | Except.error e => Except.error e
      | Except.ok pd => finalize pd) =
      (match procAll (initParamDict n_ctx nl) sd with
      | Except.error e => Except.error e
      | Except.ok pd => finalize pd)
    cases hau : allUniqueB sd with
    | false =>
      have hau' : allUniqueB sd' = false := by
        rw [allUniqueB, all_perm _ hperm, ← allUniqueB, hau]
      rw [procAll_bad v sd hagree hau (initParamDict n_ctx nl),
        procAll_bad v sd' hagree' hau' (initParamDict n_ctx nl)]
    | true =>
      have hau' : allUniqueB sd' = true := by
        rw [allUniqueB, all_perm _ hperm, ← allUniqueB, hau]
      obtain ⟨pd1, hpd1, hchar1, hnc1, hnl1⟩ :=
        procAll_agree v sd hagree hau (initParamDict n_ctx nl)
      obtain ⟨pd2, hpd2, hchar2, hnc2, hnl2⟩ :=
        procAll_agree v sd' hagree' hau' (initParamDict n_ctx nl)
      rw [hpd1, hpd2]
      have hpd : pd2 = pd1 := by
        apply paramDict_ext
        · intro f
          rw [hchar1 f, hchar2 f]
          have hobs : fieldObservedB f sd' = fieldObservedB f sd := by
            unfold fieldObservedB
            exact any_perm _ hperm
          simp only [hobs]
        · rw [hnc1, hnc2]
        · rw [hnl1, hnl2]
      rw [hpd]

/-- Counterexample to C9 as stated: a mapping whose two `attn.W_Q` tensors
have different shapes yields, after swapping those two entries (a
permutation of the very same name-to-tensor entries), a different config:
first-observation-wins reads `n_head`/`d_head` off whichever `W_Q` comes
first. -/
theorem c9_counterexample :
    c9StateDictB.Perm c9StateDictA ∧
    _state_dict_to_model_config c9StateDictA 10 =
      Except.ok ⟨5, 7, 10, 3, 2, 11, 2⟩ ∧
    _state_dict_to_model_config c9StateDictB 10 =
      Except.ok ⟨5, 7, 10, 6, 4, 11, 2⟩ ∧
    (⟨5, 7, 10, 3, 2, 11, 2⟩ : RawModelConfig) ≠ ⟨5, 7, 10, 6, 4, 11, 2⟩ :=
  ⟨by decide, by decide, by decide, by decide⟩

theorem c9_witness :
    (_state_dict_to_model_config c9WitnessSdP 10 =
      _state_dict_to_model_config c9WitnessSd 10) ∧
    (_state_dict_to_model_config c9ErrWitnessSdP 10 =
      _state_dict_to_model_config c9ErrWitnessSd 10) ∧
    _state_dict_to_model_config c9ErrWitnessSd 10 =
      Except.error (.ambiguousPattern [] _HOOKED_TRANSFORMER_MODULE_REGEXES_REGISTRY) :=
  ⟨c9_permutation_with_agreement c9WitnessSd c9WitnessSdP 10 c9V
      (by decide) (by decide),
   c9_permutation_with_agreement c9ErrWitnessSd c9ErrWitnessSdP 10 c9V
      (by decide) (by decide),
   by decide⟩

/-- Claim C10: inference reads only tensor names and shapes, never stored
values: two mappings with the same keys in the same order and the same
shape for each key produce identical outcomes (config or error),
regardless of the tensors' numeric contents. -/
theorem c10_shape_only (sd₁ sd₂ : StateDict) (n_ctx : Nat)
    (h : sd₁.map (fun kt => (kt.1, kt.2.size)) =
      sd₂.map (fun kt => (kt.1, kt.2.size))) :
    _state_dict_to_model_config sd₁ n_ctx = _state_dict_to_model_config sd₂ n_ctx := by
  have hkeys : sd₁.map Prod.fst = sd₂.map Prod.fst := by
    have h2 := congrArg (List.map Prod.fst) h
    simpa [List.map_map] using h2
  have hE : _extract_n_layers sd₁ = _extract_n_layers sd₂ := by
    rw [extract_n_layers_eq, extract_n_layers_eq,
      blockKeys_keys_congr sd₁ sd₂ hkeys]
  unfold _state_dict_to_model_config
  rw [hE]
  cases _extract_n_layers sd₂ with
  | error e => rfl
  | ok nl =>
    show (match procAll (initParamDict n_ctx nl) sd₁ with
      | Except.error e => Except.error e
      | Except.ok pd => finalize pd) =
      (match procAll (initParamDict n_ctx nl) sd₂ with
      | Except.error e => Except.error e
      | Except.ok pd => finalize pd)
    rw [procAll_shape_congr sd₁ sd₂ h (initParamDict n_ctx nl)]

theorem c10_witness :
    _state_dict_to_model_config c10StateDictA 10 =
      _state_dict_to_model_config c10StateDictB 10 ∧
    c10StateDictA ≠ c10StateDictB :=
  ⟨c10_shape_only c10StateDictA c10StateDictB 10 (by decide), by decide⟩

end Persistence
